import Mathlib

/-!
Verification of the Lena icon scripts (`scripts/generate_icon.py`,
`scripts/process_icon.py`).

The two Python scripts are shallowly embedded below.  Machine pixels are
modelled with unbounded integers (all channel values produced by the scripts
lie in `[0, 255]`), Python `float` arithmetic is modelled with exact rationals
(for the constants appearing in these scripts the truncated results coincide
at every evaluated point), and Python's `int(·)` conversion is modelled by
truncation toward zero.  Imaging-library primitives (PIL) that the scripts
delegate to are modelled by explicitly named definitions carrying their
documented semantics.
-/

namespace Lena

/-- Python `int(x)`: truncation toward zero, on exact rationals. -/
def pyInt (q : ℚ) : ℤ := if 0 ≤ q then ⌊q⌋ else ⌈q⌉

/-- An RGBA pixel; channel values produced by the scripts lie in `[0,255]`. -/
structure RGBA where
  r : ℤ
  g : ℤ
  b : ℤ
  a : ℤ
  deriving DecidableEq, Repr

/-- An RGB color triple, as returned by `lerp_color`. -/
structure RGB where
  r : ℤ
  g : ℤ
  b : ℤ
  deriving DecidableEq, Repr

/-- A canvas is a pixel buffer, addressed by (x, y); coordinates outside the
bounds of the image being modelled are irrelevant to every theorem below. -/
def Canvas : Type := ℕ → ℕ → RGBA

/-- `SIZE = 1024` from `generate_icon.py`. -/
def SIZE : ℕ := 1024

/-- `lerp_color` from `generate_icon.py`:
`tuple(int(c1[i] + (c2[i] - c1[i]) * t) for i in range(3))`. -/
def lerp_color (c1 c2 : RGB) (t : ℚ) : RGB :=
  ⟨pyInt ((c1.r : ℚ) + ((c2.r : ℚ) - (c1.r : ℚ)) * t),
   pyInt ((c1.g : ℚ) + ((c2.g : ℚ) - (c1.g : ℚ)) * t),
   pyInt ((c1.b : ℚ) + ((c2.b : ℚ) - (c1.b : ℚ)) * t)⟩

/-- `color_top = (245, 230, 211)` — soft golden cream. -/
def color_top : RGB := ⟨245, 230, 211⟩

/-- `color_mid1 = (229, 160, 92)` — warm golden. -/
def color_mid1 : RGB := ⟨229, 160, 92⟩

/-- `color_mid2 = (217, 133, 59)` — primary golden orange. -/
def color_mid2 : RGB := ⟨217, 133, 59⟩

/-- `color_bottom = (184, 114, 46)` — deep sunset gold. -/
def color_bottom : RGB := ⟨184, 114, 46⟩

/-- The gradient row color of `create_icon`: the body of the
`for y in range(SIZE)` loop.  `t = y / SIZE`; the three branches interpolate
between consecutive stops.  Python float arithmetic is replaced by exact
rational arithmetic; for `SIZE = 1024` and these four stops, both branch
selection and the truncated channel values agree with the float evaluation at
every row. -/
def gradRowColor (y : ℕ) : RGB :=
  let t : ℚ := (y : ℚ) / (SIZE : ℚ)
  if t < 3/10 then lerp_color color_top color_mid1 (t / (3/10))
  else if t < 6/10 then lerp_color color_mid1 color_mid2 ((t - 3/10) / (3/10))
  else lerp_color color_mid2 color_bottom ((t - 6/10) / (4/10))

/-- PIL `ImageDraw.line([(0, y), (SIZE - 1, y)], fill=(*color, 255))`: the
one-pixel-wide horizontal line overwrites every pixel of row `y` with the fill
color, alpha 255. -/
def drawHLine (c : Canvas) (y : ℕ) (col : RGB) : Canvas :=
  fun px py => if py = y ∧ px ≤ SIZE - 1 then ⟨col.r, col.g, col.b, 255⟩ else c px py

/-- The transparent canvas `Image.new('RGBA', (SIZE, SIZE), (0, 0, 0, 0))`. -/
def blankCanvas : Canvas := fun _ _ => ⟨0, 0, 0, 0⟩

/-- The gradient background of `create_icon`: the `for y in range(SIZE)` loop
drawing one horizontal line per row onto the fresh transparent canvas. -/
def gradientCanvas : Canvas :=
  (List.range SIZE).foldl (fun c y => drawHLine c y (gradRowColor y)) blankCanvas

/-- Row-fill lemma for the gradient loop: after the first `n ≤ SIZE` iterations
every already-drawn row `y < n` holds its row color at every in-bounds `x`. -/
theorem gradient_loop_rows (n : ℕ) (c : Canvas) (x y : ℕ)
    (hy : y < n) (hx : x ≤ SIZE - 1) :
    ((List.range n).foldl (fun c y => drawHLine c y (gradRowColor y)) c) x y =
      ⟨(gradRowColor y).r, (gradRowColor y).g, (gradRowColor y).b, 255⟩ := by
  induction n generalizing c with
  | zero => omega
  | succ n ih =>
    rw [List.range_succ, List.foldl_append]
    rcases Nat.lt_or_ge y n with h | h
    · have hne : ¬(y = n ∧ x ≤ SIZE - 1) := by omega
      simp only [List.foldl_cons, List.foldl_nil, drawHLine, hne, if_false]
      exact ih _ h
    · have hyn : y = n := by omega
      subst hyn
      simp [drawHLine, hx]

/-- C1: for every row `y < 1024` and every column `x < 1024`, the pixel of the
gradient canvas built by `create_icon` has the uniform row color given by the
piecewise interpolation — with `t = y/1024`: if `t < 0.3` it is
`interpolate(stop0, stop1, t/0.3)`; if `0.3 ≤ t < 0.6` it is
`interpolate(stop1, stop2, (t−0.3)/0.3)`; otherwise
`interpolate(stop2, stop3, (t−0.6)/0.4)`, where `interpolate` adds the scaled
channel difference and truncates to an integer — and alpha is 255. -/
theorem c1_gradient_rows_piecewise (x y : ℕ) (hy : y < 1024) (hx : x < 1024) :
    gradientCanvas x y =
      (let t : ℚ := (y : ℚ) / 1024
       let c : RGB :=
         if t < 3/10 then lerp_color color_top color_mid1 (t / (3/10))
         else if t < 6/10 then lerp_color color_mid1 color_mid2 ((t - 3/10) / (3/10))
         else lerp_color color_mid2 color_bottom ((t - 6/10) / (4/10))
       ⟨c.r, c.g, c.b, 255⟩) := by
  have hx' : x ≤ SIZE - 1 := by simpa [SIZE] using Nat.le_sub_one_of_lt hx
  have hy' : y < SIZE := hy
  exact gradient_loop_rows SIZE blankCanvas x y hy' hx'

/-- C1 witness: the theorem applied at the concrete pixel (0, 500). -/
theorem c1_gradient_rows_piecewise_witness :
    gradientCanvas 0 500 =
      (let t : ℚ := (500 : ℚ) / 1024
       let c : RGB :=
         if t < 3/10 then lerp_color color_top color_mid1 (t / (3/10))
         else if t < 6/10 then lerp_color color_mid1 color_mid2 ((t - 3/10) / (3/10))
         else lerp_color color_mid2 color_bottom ((t - 6/10) / (4/10))
       ⟨c.r, c.g, c.b, 255⟩) :=
  c1_gradient_rows_piecewise 0 500 (by decide) (by decide)

/-- An in-memory image: dimensions plus a pixel buffer (PIL `Image`).
Coordinates outside `[0,w) × [0,h)` are irrelevant to every theorem below. -/
structure Img where
  w : ℕ
  h : ℕ
  px : ℕ → ℕ → RGBA

/-- The crop side computed by `crop_square_center`: `side = min(w, h)`. -/
def cropSide (img : Img) : ℕ := min img.w img.h

/-- The crop x-offset computed by `crop_square_center`:
`left = (w - side) // 2`. -/
def cropLeft (img : Img) : ℕ := (img.w - cropSide img) / 2

/-- The crop y-offset computed by `crop_square_center`:
`top = (h - side) // 2`. -/
def cropTop (img : Img) : ℕ := (img.h - cropSide img) / 2

/-- PIL `Image.crop((left, top, right, bottom))`: the sub-image of width
`right − left` and height `bottom − top` whose pixel `(x, y)` is the source
pixel `(left + x, top + y)`. -/
def cropBox (img : Img) (left top right bottom : ℕ) : Img :=
  ⟨right - left, bottom - top, fun x y => img.px (left + x) (top + y)⟩

/-- `crop_square_center` from `process_icon.py`:
`img.crop((left, top, left + side, top + side))` with
`side = min(w, h)`, `left = (w - side) // 2`, `top = (h - side) // 2`. -/
def crop_square_center (img : Img) : Img :=
  cropBox img (cropLeft img) (cropTop img)
    (cropLeft img + cropSide img) (cropTop img + cropSide img)

/-- Modelled from the spec: PIL `Image.resize((w, h), Image.LANCZOS)`.  The
Lanczos resampling kernel lives in the imaging library, outside this
repository; the spec's §4.5/§8 pin down only the behaviour exercised here,
that a resize to the image's own dimensions is a content no-op
("resize is a no-op in content, i.e. pixel-identical").  Resampling to a
genuinely different size is out of the scope of this development. -/
def resizeModel (img : Img) (w h : ℕ) : Img :=
  if img.w = w ∧ img.h = h then img else ⟨w, h, fun _ _ => ⟨0, 0, 0, 0⟩⟩

/-- C2: `crop_square_center` returns the square sub-image of side
`s = min(w, h)` whose top-left corner is at `((w−s)/2, (h−s)/2)` (floored
division); and on any 2000×1000 input the offsets are `(500, 0)` with side
1000. -/
theorem c2_crop_square_center (img : Img) (hw : 1 ≤ img.w) (hh : 1 ≤ img.h) :
    (crop_square_center img).w = min img.w img.h ∧
    (crop_square_center img).h = min img.w img.h ∧
    (∀ x y : ℕ, (crop_square_center img).px x y =
      img.px ((img.w - min img.w img.h) / 2 + x) ((img.h - min img.w img.h) / 2 + y)) ∧
    (img.w = 2000 → img.h = 1000 →
      cropLeft img = 500 ∧ cropTop img = 0 ∧ cropSide img = 1000) := by
  refine ⟨?_, ?_, ?_, ?_⟩
  · simp [crop_square_center, cropBox, cropSide, cropLeft]
  · simp [crop_square_center, cropBox, cropSide, cropTop]
  · intro x y
    simp [crop_square_center, cropBox, cropSide, cropLeft, cropTop]
  · intro h2000 h1000
    simp [cropLeft, cropTop, cropSide, h2000, h1000]

/-- C2 witness: the theorem applied to a concrete 2000×1000 image. -/
theorem c2_crop_square_center_witness :
    cropLeft ⟨2000, 1000, fun _ _ => ⟨0, 0, 0, 0⟩⟩ = 500 ∧
    cropTop ⟨2000, 1000, fun _ _ => ⟨0, 0, 0, 0⟩⟩ = 0 ∧
    cropSide ⟨2000, 1000, fun _ _ => ⟨0, 0, 0, 0⟩⟩ = 1000 :=
  (c2_crop_square_center ⟨2000, 1000, fun _ _ => ⟨0, 0, 0, 0⟩⟩
    (by decide) (by decide)).2.2.2 rfl rfl

/-- C6: on an already-square 1024×1024 input the crop offsets are 0 and the
side equals the input side, `crop_square_center` returns the image unchanged,
and the subsequent resize to 1024×1024 (`squared.resize((TARGET_SIZE,
TARGET_SIZE), Image.LANCZOS)`) leaves it pixel-identical. -/
theorem c6_crop_upscale_idempotent (img : Img) (hw : img.w = 1024) (hh : img.h = 1024) :
    cropLeft img = 0 ∧ cropTop img = 0 ∧ cropSide img = img.w ∧
    crop_square_center img = img ∧
    resizeModel (crop_square_center img) 1024 1024 = img := by
  obtain ⟨w, h, px⟩ := img
  simp only [Img.mk.injEq] at *
  subst hw hh
  have hcrop : crop_square_center ⟨1024, 1024, px⟩ = ⟨1024, 1024, px⟩ := by
    simp only [crop_square_center, cropBox, cropLeft, cropTop, cropSide, Img.mk.injEq]
    refine ⟨by simp, by simp, ?_⟩
    funext x y
    simp
  refine ⟨by simp [cropLeft, cropSide], by simp [cropTop, cropSide],
    by simp [cropSide], hcrop, ?_⟩
  rw [hcrop]
  simp [resizeModel]

/-- C6 witness: the theorem applied to a concrete 1024×1024 image. -/
theorem c6_crop_upscale_idempotent_witness :
    resizeModel (crop_square_center ⟨1024, 1024, fun _ _ => ⟨7, 7, 7, 255⟩⟩) 1024 1024 =
      ⟨1024, 1024, fun _ _ => ⟨7, 7, 7, 255⟩⟩ :=
  (c6_crop_upscale_idempotent ⟨1024, 1024, fun _ _ => ⟨7, 7, 7, 255⟩⟩ rfl rfl).2.2.2.2

/-- Python `range(n, 0, -2)` as a list: counts down from `n` in steps of 2
while the value stays positive. -/
def rangeDown2 : ℕ → List ℕ
  | 0 => []
  | 1 => [1]
  | n + 2 => (n + 2) :: rangeDown2 n

/-- `center_x, center_y = SIZE // 2, SIZE // 3` from `create_icon`. -/
def center_x : ℕ := SIZE / 2

/-- `center_y = SIZE // 3`. -/
def center_y : ℕ := SIZE / 3

/-- `max_radius = SIZE // 2` from `create_icon`. -/
def max_radius : ℕ := SIZE / 2

/-- The glow circle alpha of `create_icon`:
`alpha = int(40 * (1 - r / max_radius) ** 2)`.  Python float arithmetic is
replaced by exact rational arithmetic; for `max_radius = 512` the truncated
value agrees with the float evaluation at every drawn radius. -/
def glow_alpha (r : ℕ) : ℤ :=
  pyInt (40 * (1 - (r : ℚ) / (max_radius : ℚ)) ^ 2)

/-- The squared Euclidean distance of pixel `(x, y)` from the glow center. -/
def glowDistSq (x y : ℕ) : ℕ :=
  ((x : ℤ) - (center_x : ℤ)).natAbs ^ 2 + ((y : ℤ) - (center_y : ℤ)).natAbs ^ 2

/-- PIL `ImageDraw.ellipse([cx - r, cy - r, cx + r, cy + r], fill=f)` for the
glow circles: overwrites every pixel of the closed disc of radius `r` around
the center with the fill color (the library's own rasterisation of a filled
circle, modelled as Euclidean disc membership). -/
def drawGlowDisc (c : Canvas) (r : ℕ) (fill : RGBA) : Canvas :=
  fun px py => if glowDistSq px py ≤ r * r then fill else c px py

/-- The fill color of the glow circle of radius `r`:
`fill=(255, 255, 255, alpha)`. -/
def glow_fill (r : ℕ) : RGBA := ⟨255, 255, 255, glow_alpha r⟩

/-- The glow layer of `create_icon`: the `for r in range(max_radius, 0, -2)`
loop drawing concentric white discs of alpha `glow_alpha r` onto a fresh
transparent layer. -/
def glowCanvas : Canvas :=
  (rangeDown2 max_radius).foldl
    (fun c r => drawGlowDisc c r (glow_fill r)) blankCanvas

/-- The glow-layer alpha as a function of squared distance from the center:
the same loop, tracking only the alpha channel. -/
def glowAlphaAt (d2 : ℕ) : ℤ :=
  (rangeDown2 max_radius).foldl
    (fun a r => if d2 ≤ r * r then glow_alpha r else a) 0

/-- Every element of `rangeDown2 n` is positive and at most `n`, with the same
parity as `n`. -/
theorem rangeDown2_mem {n r : ℕ} (h : r ∈ rangeDown2 n) :
    1 ≤ r ∧ r ≤ n ∧ r % 2 = n % 2 := by
  induction n using Nat.strong_induction_on with
  | _ n ih =>
    match n with
    | 0 => simp [rangeDown2] at h
    | 1 =>
      simp [rangeDown2] at h
      omega
    | n + 2 =>
      simp only [rangeDown2, List.mem_cons] at h
      rcases h with h | h
      · omega
      · have := ih n (by omega) h
        omega

/-- Conversely, every positive `r ≤ n` of the parity of `n` is in
`rangeDown2 n`. -/
theorem rangeDown2_mem_of {n r : ℕ} (h1 : 1 ≤ r) (h2 : r ≤ n)
    (h3 : r % 2 = n % 2) : r ∈ rangeDown2 n := by
  induction n using Nat.strong_induction_on with
  | _ n ih =>
    match n with
    | 0 => omega
    | 1 =>
      have : r = 1 := by omega
      simp [rangeDown2, this]
    | n + 2 =>
      simp only [rangeDown2, List.mem_cons]
      rcases Nat.lt_or_ge r (n + 2) with hlt | hge
      · exact Or.inr (ih n (by omega) (by omega) (by omega))
      · exact Or.inl (by omega)

/-- C3 counterexample: radius 1 is not among the drawn glow radii — the loop
`range(max_radius, 0, -2)` starts at the even value 512, so it ends at 2. -/
theorem c3_radius_one_not_drawn : (1 : ℕ) ∉ rangeDown2 max_radius := by
  intro h
  have := rangeDown2_mem h
  simp [max_radius, SIZE] at this

/-- C3 (amended): the glow radii drawn by `create_icon` are exactly the even
radii from `R = 512` down to 2 (step 2); radius 1 is not drawn; and each drawn
circle of radius `r` is filled with `(255, 255, 255, ⌊40·(1 − r/R)²⌋)`. -/
theorem c3_glow_circles_amended :
    (∀ r : ℕ, r ∈ rangeDown2 max_radius ↔ 2 ≤ r ∧ r ≤ 512 ∧ r % 2 = 0) ∧
    (1 : ℕ) ∉ rangeDown2 max_radius ∧
    (∀ r : ℕ, glow_fill r =
      ⟨255, 255, 255, ⌊(40 * (1 - (r : ℚ) / (max_radius : ℚ)) ^ 2 : ℚ)⌋⟩) := by
  have hmr : max_radius = 512 := by simp [max_radius, SIZE]
  refine ⟨?_, ?_, ?_⟩
  · intro r
    constructor
    · intro h
      have := rangeDown2_mem h
      omega
    · intro h
      exact rangeDown2_mem_of (by omega) (by omega) (by omega)
  · intro h
    have := rangeDown2_mem h
    omega
  · intro r
    have hnn : (0 : ℚ) ≤ 40 * (1 - (r : ℚ) / (max_radius : ℚ)) ^ 2 := by positivity
    simp [glow_fill, glow_alpha, pyInt, hnn]

/-- `glow_alpha` is antitone on radii up to `max_radius`: a larger circle gets
a smaller (or equal) alpha. -/
theorem glow_alpha_antitone {r r' : ℕ} (h : r ≤ r') (h' : r' ≤ max_radius) :
    glow_alpha r' ≤ glow_alpha r := by
  have hmr : (0 : ℚ) < (max_radius : ℚ) := by
    have : max_radius = 512 := by simp [max_radius, SIZE]
    rw [this]; norm_num
  have h1 : (0 : ℚ) ≤ 1 - (r' : ℚ) / (max_radius : ℚ) := by
    rw [sub_nonneg, div_le_one hmr]
    exact_mod_cast h'
  have hdiv : (r : ℚ) / (max_radius : ℚ) ≤ (r' : ℚ) / (max_radius : ℚ) := by
    gcongr
  have h2 : 1 - (r' : ℚ) / (max_radius : ℚ) ≤ 1 - (r : ℚ) / (max_radius : ℚ) := by
    linarith
  have hsq : (1 - (r' : ℚ) / (max_radius : ℚ)) ^ 2 ≤
      (1 - (r : ℚ) / (max_radius : ℚ)) ^ 2 :=
    pow_le_pow_left₀ h1 h2 2
  have hmul : (40 : ℚ) * (1 - (r' : ℚ) / (max_radius : ℚ)) ^ 2 ≤
      40 * (1 - (r : ℚ) / (max_radius : ℚ)) ^ 2 := by
    linarith
  have hnn : ∀ s : ℕ, (0 : ℚ) ≤ 40 * (1 - (s : ℚ) / (max_radius : ℚ)) ^ 2 := by
    intro s; positivity
  simp only [glow_alpha, pyInt, hnn r, hnn r', if_pos]
  exact Int.floor_le_floor hmul

/-- The glow radius list is strictly decreasing. -/
theorem rangeDown2_pairwise (n : ℕ) : (rangeDown2 n).Pairwise (· > ·) := by
  induction n using Nat.strong_induction_on with
  | _ n ih =>
    match n with
    | 0 => simp [rangeDown2]
    | 1 => simp [rangeDown2]
    | n + 2 =>
      rw [rangeDown2, List.pairwise_cons]
      refine ⟨fun r hr => ?_, ih n (by omega)⟩
      have := rangeDown2_mem hr
      omega

/-- Overwrite-fold monotonicity: along the strictly decreasing radius list,
a pixel at smaller squared distance ends with at least the alpha of a pixel at
larger squared distance. -/
theorem glow_fold_mono (dp dq : ℕ) (hd : dp ≤ dq) (L : List ℕ)
    (hpw : L.Pairwise (· > ·)) (hub : ∀ r ∈ L, r ≤ max_radius)
    (ap aq : ℤ) (hacc : aq ≤ ap) (hinv : ∀ r ∈ L, aq ≤ glow_alpha r) :
    (L.foldl (fun a r => if dq ≤ r * r then glow_alpha r else a) aq) ≤
      (L.foldl (fun a r => if dp ≤ r * r then glow_alpha r else a) ap) := by
  induction L generalizing ap aq with
  | nil => simpa using hacc
  | cons r t ih =>
    rw [List.pairwise_cons] at hpw
    simp only [List.foldl_cons]
    by_cases hq : dq ≤ r * r
    · have hp : dp ≤ r * r := le_trans hd hq
      rw [if_pos hq, if_pos hp]
      refine ih hpw.2 (fun s hs => hub s (List.mem_cons_of_mem r hs))
        (glow_alpha r) (glow_alpha r) le_rfl (fun s hs => ?_)
      exact glow_alpha_antitone (le_of_lt (hpw.1 s hs))
        (hub r (List.mem_cons_self r t))
    · rw [if_neg (by omega)]
      by_cases hp : dp ≤ r * r
      · rw [if_pos hp]
        refine ih hpw.2 (fun s hs => hub s (List.mem_cons_of_mem r hs))
          (glow_alpha r) aq (hinv r (List.mem_cons_self r t))
          (fun s hs => hinv s (List.mem_cons_of_mem r hs))
      · rw [if_neg (by omega)]
        exact ih hpw.2 (fun s hs => hub s (List.mem_cons_of_mem r hs))
          ap aq hacc (fun s hs => hinv s (List.mem_cons_of_mem r hs))

/-- Alpha-channel bridge: the alpha of the drawn glow layer at a pixel equals
the alpha-only fold at that pixel's squared distance from the glow center. -/
theorem glowCanvas_alpha_bridge (L : List ℕ) (c : Canvas) (x y : ℕ) :
    ((L.foldl (fun c r => drawGlowDisc c r (glow_fill r)) c) x y).a =
      L.foldl (fun a r => if glowDistSq x y ≤ r * r then glow_alpha r else a)
        ((c x y).a) := by
  induction L generalizing c with
  | nil => rfl
  | cons r t ih =>
    simp only [List.foldl_cons]
    rw [ih]
    by_cases h : glowDistSq x y ≤ r * r
    · rw [if_pos h]
      have : (drawGlowDisc c r (glow_fill r)) x y = glow_fill r := by
        simp [drawGlowDisc, h]
      rw [this]
      rfl
    · rw [if_neg (by omega)]
      have : (drawGlowDisc c r (glow_fill r)) x y = c x y := by
        simp only [drawGlowDisc, if_neg (by omega : ¬ glowDistSq x y ≤ r * r)]
      rw [this]

/-- A fold whose condition is everywhere false returns its accumulator. -/
theorem glow_fold_all_miss (d2 : ℕ) (L : List ℕ) (a : ℤ)
    (h : ∀ r ∈ L, r * r < d2) :
    (L.foldl (fun a r => if d2 ≤ r * r then glow_alpha r else a) a) = a := by
  induction L generalizing a with
  | nil => rfl
  | cons r t ih =>
    simp only [List.foldl_cons]
    rw [if_neg (by have := h r (List.mem_cons_self r t); omega)]
    exact ih a (fun s hs => h s (List.mem_cons_of_mem r hs))

/-- Each glow circle's alpha is nonnegative. -/
theorem glow_alpha_nonneg (r : ℕ) : 0 ≤ glow_alpha r := by
  have hnn : (0 : ℚ) ≤ 40 * (1 - (r : ℚ) / (max_radius : ℚ)) ^ 2 := by positivity
  simp only [glow_alpha, pyInt, if_pos hnn]
  exact Int.le_floor.mpr (by exact_mod_cast hnn)

/-- For even `n ≥ 2` the radius list ends with the radius 2: the innermost
circle drawn by the glow loop has radius 2. -/
theorem rangeDown2_ends_two : ∀ n : ℕ, n % 2 = 0 → 2 ≤ n →
    ∃ L : List ℕ, rangeDown2 n = L ++ [2] := by
  intro n
  induction n using Nat.strong_induction_on with
  | _ n ih =>
    match n with
    | 0 => omega
    | 1 => omega
    | 2 => exact fun _ _ => ⟨[], rfl⟩
    | n + 3 =>
      intro hev hge
      obtain ⟨L, hL⟩ := ih (n + 1) (by omega) (by omega) (by omega)
      exact ⟨(n + 3) :: L, by
        rw [show n + 3 = (n + 1) + 2 from rfl, rangeDown2, hL, List.cons_append]⟩

/-- C4: for the glow parameters of `create_icon` (center `(512, 341)`, maximum
radius `R = 512`), the alpha of the finished glow layer is monotonically
non-increasing in the distance from the glow center; it is 39 (≈ 40) at the
center and 0 beyond distance `R`, independent of the draw order of the
circles. -/
theorem c4_glow_alpha_monotone (px py qx qy : ℕ)
    (h : glowDistSq px py ≤ glowDistSq qx qy) :
    (glowCanvas qx qy).a ≤ (glowCanvas px py).a ∧
    (glowCanvas center_x center_y).a = 39 ∧
    (∀ x y : ℕ, max_radius * max_radius < glowDistSq x y →
      (glowCanvas x y).a = 0) := by
  have hub : ∀ r ∈ rangeDown2 max_radius, r ≤ max_radius :=
    fun r hr => (rangeDown2_mem hr).2.1
  have hbridge : ∀ x y : ℕ, (glowCanvas x y).a =
      (rangeDown2 max_radius).foldl
        (fun a r => if glowDistSq x y ≤ r * r then glow_alpha r else a) 0 :=
    fun x y => glowCanvas_alpha_bridge (rangeDown2 max_radius) blankCanvas x y
  refine ⟨?_, ?_, ?_⟩
  · rw [hbridge, hbridge]
    exact glow_fold_mono (glowDistSq px py) (glowDistSq qx qy) h
      (rangeDown2 max_radius) (rangeDown2_pairwise max_radius) hub 0 0 le_rfl
      (fun r _ => glow_alpha_nonneg r)
  · rw [hbridge]
    obtain ⟨L, hL⟩ := rangeDown2_ends_two max_radius (by decide) (by decide)
    rw [hL, List.foldl_append]
    simp only [List.foldl_cons, List.foldl_nil]
    rw [if_pos (by decide : glowDistSq center_x center_y ≤ 2 * 2)]
    norm_num [glow_alpha, pyInt, max_radius, SIZE]
  · intro x y hfar
    rw [hbridge]
    refine glow_fold_all_miss (glowDistSq x y) (rangeDown2 max_radius) 0
      (fun r hr => ?_)
    have hrle := hub r hr
    have : r * r ≤ max_radius * max_radius := Nat.mul_le_mul hrle hrle
    omega

/-- C4 witness: the theorem applied to the center pixel and the corner pixel
(0, 0). -/
theorem c4_glow_alpha_monotone_witness :
    (glowCanvas 0 0).a ≤ (glowCanvas 512 341).a :=
  (c4_glow_alpha_monotone 512 341 0 0 (by decide)).1

/-- An abstract loaded font resource (PIL `ImageFont`): its `textbbox` for the
rendered letter, and the rasterised glyph coverage (0–255) of each pixel given
the draw origin.  Rasterisation itself lives in the imaging library; only the
data the script consumes is modelled. -/
structure FontData where
  bbox : ℤ × ℤ × ℤ × ℤ
  coverage : ℚ → ℚ → ℕ → ℕ → ℕ

/-- The filesystem environment seen by `create_icon`'s font resolution:
`os.path.exists` for a path, and the result of `ImageFont.truetype` (`none`
models a raised exception). -/
structure FontEnv where
  pathExists : String → Bool
  load : String → Option FontData

/-- `ImageFont.load_default()`: the built-in minimal fallback font, a fixed
constant resource of the imaging library. -/
def defaultFont : FontData := ⟨(0, 0, 6, 11), fun _ _ _ _ => 0⟩

/-- `font_paths` from `create_icon`: the ordered font candidate list. -/
def font_paths : List String :=
  ["/System/Library/Fonts/Supplemental/Georgia Bold.ttf",
   "/System/Library/Fonts/Supplemental/Georgia.ttf",
   "/System/Library/Fonts/Supplemental/Times New Roman Bold.ttf",
   "/System/Library/Fonts/NewYork.ttf",
   "/System/Library/Fonts/Helvetica.ttc",
   "/System/Library/Fonts/SFCompact.ttf"]

/-- The font-resolution loop of `create_icon` over a candidate list:
`if os.path.exists(fp): try: font = truetype(fp); break except: continue`,
with `font = ImageFont.load_default()` when the loop ends without a break. -/
def resolveFontAux (e : FontEnv) : List String → FontData
  | [] => defaultFont
  | p :: rest =>
    if e.pathExists p then
      match e.load p with
      | some f => f
      | none => resolveFontAux e rest
    else resolveFontAux e rest

/-- The font used by `create_icon`: the resolution loop run on `font_paths`. -/
def resolveFont (e : FontEnv) : FontData := resolveFontAux e font_paths

/-- Spec-side font choice (§4.4/§7): the first candidate that exists and loads
successfully, the built-in default when none resolves.  Stated with
`List.find?` so it can be compared with the loop `resolveFont`. -/
def specFirstFont (e : FontEnv) : FontData :=
  match (font_paths.find? fun p => e.pathExists p && (e.load p).isSome) with
  | some p =>
    match e.load p with
    | some f => f
    | none => defaultFont
  | none => defaultFont

/-- Loop/spec agreement on an arbitrary candidate list. -/
theorem resolveFontAux_eq_find (e : FontEnv) (L : List String) :
    resolveFontAux e L =
      (match (L.find? fun p => e.pathExists p && (e.load p).isSome) with
       | some p =>
         match e.load p with
         | some f => f
         | none => defaultFont
       | none => defaultFont) := by
  induction L with
  | nil => rfl
  | cons p rest ih =>
    rw [resolveFontAux, List.find?_cons]
    by_cases hex : e.pathExists p
    · rcases hld : e.load p with _ | f
      · simp [hex, hld, ih]
      · simp [hex, hld]
    · simp [hex, ih]

/-- C9: font resolution never aborts — it is a total function of the
environment — and the font used is the first path in the ordered candidate
list that exists and loads successfully; every individual load failure falls
through to the next candidate, and if no candidate resolves, the built-in
default font is used. -/
theorem c9_font_resolution_first_success (e : FontEnv) :
    resolveFont e = specFirstFont e ∧
    ((font_paths.find? fun p => e.pathExists p && (e.load p).isSome) = none →
      resolveFont e = defaultFont) := by
  constructor
  · exact resolveFontAux_eq_find e font_paths
  · intro hnone
    rw [resolveFont, resolveFontAux_eq_find e font_paths, hnone]

/-- C9 witness: the resolution loop applied to the environment in which no
candidate path exists. -/
theorem c9_font_resolution_first_success_witness :
    resolveFont ⟨fun _ => false, fun _ => none⟩ =
      specFirstFont ⟨fun _ => false, fun _ => none⟩ :=
  (c9_font_resolution_first_success ⟨fun _ => false, fun _ => none⟩).1

/-- PIL `Image.putalpha(mask)`: overwrites the alpha band of every pixel with
the mask value at that pixel, leaving R, G, B unchanged. -/
def putalpha (c : Canvas) (m : ℕ → ℕ → ℤ) : Canvas :=
  fun x y => ⟨(c x y).r, (c x y).g, (c x y).b, m x y⟩

/-- `corner_radius = 224` from `create_icon`. -/
def corner_radius : ℕ := 224

/-- Membership in the rounded-rectangle silhouette of the mask drawn by
`mask_draw.rounded_rectangle([(0, 0), (SIZE - 1, SIZE - 1)], radius=224,
fill=255)`: inside the square with quarter-circle corners of radius 224. -/
def inRoundedRect (x y : ℕ) : Bool :=
  let r := corner_radius
  let dx : ℕ := if x < r then r - x else if SIZE - 1 - r < x then x - (SIZE - 1 - r) else 0
  let dy : ℕ := if y < r then r - y else if SIZE - 1 - r < y then y - (SIZE - 1 - r) else 0
  decide (x ≤ SIZE - 1) && decide (y ≤ SIZE - 1) && decide (dx * dx + dy * dy ≤ r * r)

/-- Modelled from the spec (§4.2): the single-channel rounded-rectangle mask —
255 inside the rounded-rectangle silhouette, 0 outside.  The library's
`rounded_rectangle` rasteriser is external to this repository; the spec fixes
its contract as this two-valued mask. -/
def roundedMask (x y : ℕ) : ℤ := if inRoundedRect x y then 255 else 0

/-- Modelled from the spec (§4.3): PIL `Image.alpha_composite(dst, src)`, the
standard "over" blend `result = src + dst·(1 − src_alpha)` per channel, with
alphas scaled over 255. -/
def alphaComposite (dst src : Canvas) : Canvas :=
  fun x y =>
    let s := src x y
    let d := dst x y
    ⟨s.r + d.r * (255 - s.a) / 255,
     s.g + d.g * (255 - s.a) / 255,
     s.b + d.b * (255 - s.a) / 255,
     s.a + d.a * (255 - s.a) / 255⟩

/-- PIL `ImageDraw.text(xy, letter, fill=ink, font=font)`: blends the ink into
the canvas through the glyph's rasterised coverage at each pixel (coverage 255
replaces the pixel by the ink, coverage 0 leaves it unchanged). -/
def drawText (c : Canvas) (ox oy : ℚ) (ink : RGBA) (f : FontData) : Canvas :=
  fun x y =>
    let cov : ℤ := (f.coverage ox oy x y : ℤ)
    let old := c x y
    ⟨(old.r * (255 - cov) + ink.r * cov) / 255,
     (old.g * (255 - cov) + ink.g * cov) / 255,
     (old.b * (255 - cov) + ink.b * cov) / 255,
     (old.a * (255 - cov) + ink.a * cov) / 255⟩

/-- `font_size = 520` (the size passed to `ImageFont.truetype`). -/
def font_size : ℕ := 520

/-- The glyph x-origin of `create_icon`:
`x = (SIZE - text_width) / 2 - bbox[0]` (Python true division). -/
def glyphX (f : FontData) : ℚ :=
  let bbox := f.bbox
  let tw : ℤ := bbox.2.2.1 - bbox.1
  ((SIZE : ℚ) - (tw : ℚ)) / 2 - (bbox.1 : ℚ)

/-- The glyph y-origin of `create_icon`:
`y = (SIZE - text_height) / 2 - bbox[1] - 10`. -/
def glyphY (f : FontData) : ℚ :=
  let bbox := f.bbox
  let th : ℤ := bbox.2.2.2 - bbox.2.1
  ((SIZE : ℚ) - (th : ℚ)) / 2 - (bbox.2.1 : ℚ) - 10

/-- `shadow_offset = 6` from `create_icon`. -/
def shadow_offset : ℕ := 6

/-- The canvas after the gradient loop and the first
`img.putalpha(mask)`. -/
def iconAfterFirstMask : Canvas := putalpha gradientCanvas roundedMask

/-- The canvas after `img = Image.alpha_composite(img, glow)` and the second
`img.putalpha(mask)`. -/
def iconAfterGlow : Canvas :=
  putalpha (alphaComposite iconAfterFirstMask glowCanvas) roundedMask

/-- The canvas after the shadow and letter draws (`draw.text` twice), for a
given resolved font: shadow at `(x + 6, y + 6)` in black alpha 35, then the
letter at `(x, y)` in white alpha 245. -/
def iconAfterText (f : FontData) : Canvas :=
  drawText
    (drawText iconAfterGlow (glyphX f + 6) (glyphY f + 6) ⟨0, 0, 0, 35⟩ f)
    (glyphX f) (glyphY f) ⟨255, 255, 255, 245⟩ f

/-- `create_icon` from `generate_icon.py`, as a function of the font
environment: gradient, rounded mask, glow composite, re-mask, shadow and
letter, final re-mask. -/
def create_icon (e : FontEnv) : Canvas :=
  putalpha (iconAfterText (resolveFont e)) roundedMask

/-- The resolution loop depends only on the candidates it probes. -/
theorem resolveFontAux_congr (e1 e2 : FontEnv) (L : List String)
    (h : ∀ p ∈ L, e1.pathExists p = e2.pathExists p ∧ e1.load p = e2.load p) :
    resolveFontAux e1 L = resolveFontAux e2 L := by
  induction L with
  | nil => rfl
  | cons p rest ih =>
    obtain ⟨hex, hld⟩ := h p (List.mem_cons_self p rest)
    rw [resolveFontAux, resolveFontAux, hex, hld]
    have hrest := ih fun q hq => h q (List.mem_cons_of_mem p hq)
    by_cases hb : e2.pathExists p
    · rw [if_pos hb, if_pos hb]
      rcases e2.load p with _ | f
      · exact hrest
      · rfl
    · rw [if_neg hb, if_neg hb]
      exact hrest

/-- C7: the Icon Synthesizer's output is fully determined by the constants
embedded in the script; its only contact with the environment is probing the
six font candidate paths, so any two runs whose environments agree on those
paths produce pixel-identical icon canvases. -/
theorem c7_create_icon_deterministic (e1 e2 : FontEnv)
    (h : ∀ p ∈ font_paths,
      e1.pathExists p = e2.pathExists p ∧ e1.load p = e2.load p) :
    create_icon e1 = create_icon e2 := by
  have hfont : resolveFont e1 = resolveFont e2 :=
    resolveFontAux_congr e1 e2 font_paths h
  rw [create_icon, create_icon, hfont]

/-- C7 witness: two identical runs in the environment with no font files. -/
theorem c7_create_icon_deterministic_witness :
    create_icon ⟨fun _ => false, fun _ => none⟩ =
      create_icon ⟨fun _ => false, fun _ => none⟩ :=
  c7_create_icon_deterministic ⟨fun _ => false, fun _ => none⟩
    ⟨fun _ => false, fun _ => none⟩ (fun p _ => ⟨rfl, rfl⟩)

/-- C10: in the icon returned by `create_icon`, for every font environment —
hence whatever alpha the glyph (245) and shadow (35) draws left behind — the
final alpha of every pixel equals the rounded-rectangle mask value there,
because the last `putalpha` overwrites all earlier alpha: 255 inside the
rounded silhouette and 0 outside. -/
theorem c10_final_alpha_is_mask (e : FontEnv) (x y : ℕ) :
    (create_icon e x y).a = (if inRoundedRect x y then 255 else 0) := rfl

/-- A concrete font for the C5 counterexample: zero bounding box and full
coverage at every pixel (any real font covers the glyph's interior pixels
fully; full coverage everywhere just makes every pixel such a pixel). -/
def fullCoverageFont : FontData := ⟨(0, 0, 0, 0), fun _ _ _ _ => 255⟩

/-- A concrete environment for the C5 counterexample: only the first font
candidate exists and loads, yielding `fullCoverageFont`. -/
def fullCoverageEnv : FontEnv :=
  ⟨fun p => p == "/System/Library/Fonts/Supplemental/Georgia Bold.ttf",
   fun p => if p == "/System/Library/Fonts/Supplemental/Georgia Bold.ttf"
            then some fullCoverageFont else none⟩

/-- C5 counterexample: at pixel (512, 512) in the environment
`fullCoverageEnv`, the canvas alpha before the final mask application is 245
(the letter ink's alpha) and the mask value is 255, yet the final alpha is 255
— the application does not set alpha to `min(alpha_before, mask)`. -/
theorem c5_putalpha_not_min_counterexample :
    (iconAfterText (resolveFont fullCoverageEnv) 512 512).a = 245 ∧
    roundedMask 512 512 = 255 ∧
    (create_icon fullCoverageEnv 512 512).a = 255 ∧
    (create_icon fullCoverageEnv 512 512).a ≠
      min ((iconAfterText (resolveFont fullCoverageEnv) 512 512).a)
        (roundedMask 512 512) := by
  have hfont : resolveFont fullCoverageEnv = fullCoverageFont := rfl
  have htext : (iconAfterText (resolveFont fullCoverageEnv) 512 512).a = 245 := by
    rw [hfont]
    show ((iconAfterGlow 512 512).a * (255 - 255) + 35 * 255) / 255 * (255 - 255) / 255
        + 245 * 255 / 255 = 245
    norm_num
  have hmask : roundedMask 512 512 = 255 := by decide
  have hfinal : (create_icon fullCoverageEnv 512 512).a = 255 := by
    show roundedMask 512 512 = 255
    decide
  refine ⟨htext, hmask, hfinal, ?_⟩
  rw [htext, hmask, hfinal]
  decide

/-- C5 (amended): every application of the rounded-rectangle mask in
`create_icon` overwrites each pixel's alpha with the mask value
(`putalpha` semantics), rather than taking a minimum; on the first
application the gradient canvas is fully opaque (alpha 255 ≥ mask), so there
the result coincides with `min(alpha_before, mask)`. -/
theorem c5_putalpha_overwrites_amended (e : FontEnv) (x y : ℕ)
    (hx : x < 1024) (hy : y < 1024) :
    (iconAfterFirstMask x y).a = roundedMask x y ∧
    (iconAfterGlow x y).a = roundedMask x y ∧
    (create_icon e x y).a = roundedMask x y ∧
    (iconAfterFirstMask x y).a = min ((gradientCanvas x y).a) (roundedMask x y) := by
  refine ⟨rfl, rfl, rfl, ?_⟩
  have hgrad : (gradientCanvas x y).a = 255 := by
    have hx' : x ≤ SIZE - 1 := by simp [SIZE]; omega
    have := gradient_loop_rows SIZE blankCanvas x y (by simpa [SIZE] using hy) hx'
    rw [gradientCanvas, this]
  have hle : roundedMask x y ≤ 255 := by
    rw [roundedMask]
    by_cases hm : inRoundedRect x y
    · rw [if_pos hm]
    · rw [if_neg hm]; norm_num
  have : (iconAfterFirstMask x y).a = roundedMask x y := rfl
  rw [this, hgrad, min_eq_right hle]

/-- C5 amended witness: the theorem applied at the pixel (0, 0) in the
environment with no font files. -/
theorem c5_putalpha_overwrites_amended_witness :
    (iconAfterFirstMask 0 0).a =
      min ((gradientCanvas 0 0).a) (roundedMask 0 0) :=
  (c5_putalpha_overwrites_amended ⟨fun _ => false, fun _ => none⟩ 0 0
    (by decide) (by decide)).2.2.2

/-- `TARGET_SIZE = 1024` from `process_icon.py`. -/
def TARGET_SIZE : ℕ := 1024

/-- PIL `Image.paste(small_icon, (offset, offset), small_icon)`: blends the
pasted image into the base through the pasted image's own alpha channel
inside the paste box, leaving the base untouched elsewhere. -/
def pasteCentered (base small : Img) (offset : ℕ) : Img :=
  ⟨base.w, base.h, fun x y =>
    if offset ≤ x ∧ x < offset + small.w ∧ offset ≤ y ∧ y < offset + small.h then
      let s := small.px (x - offset) (y - offset)
      let d := base.px x y
      ⟨(d.r * (255 - s.a) + s.r * s.a) / 255,
       (d.g * (255 - s.a) + s.g * s.a) / 255,
       (d.b * (255 - s.a) + s.b * s.a) / 255,
       (d.a * (255 - s.a) + s.a * s.a) / 255⟩
    else base.px x y⟩

/-- `create_splash` from `process_icon.py`: a warm cream 1024×1024 canvas,
with the icon resized to `int(target_size * 0.4)` pixels pasted centered
through its own alpha. -/
def create_splash (icon : Img) (target_size : ℕ) : Img :=
  let splash : Img := ⟨target_size, target_size, fun _ _ => ⟨254, 253, 251, 255⟩⟩
  let icon_size : ℕ := (pyInt ((target_size : ℚ) * (4/10))).toNat
  let small_icon := resizeModel icon icon_size icon_size
  let offset := (target_size - icon_size) / 2
  pasteCentered splash small_icon offset

/-- The environment seen by the post-processor's `__main__`: the result of
`Image.open(SOURCE).convert('RGBA')` — `none` models a missing file or a
decode failure (a raised exception). -/
structure PostEnv where
  source : Option Img

/-- The `__main__` block of `process_icon.py` as a function from the
environment to either a propagated error or the list of asset files written,
in order: `icon.png`, `adaptive-icon.png`, `splash-icon.png`, `favicon.png`.
All writes happen after the source image is successfully loaded, cropped and
upscaled. -/
def process_icon_main (e : PostEnv) : Except String (List (String × Img)) :=
  match e.source with
  | none => .error "cannot identify or open source image"
  | some img =>
    let squared := crop_square_center img
    let icon := resizeModel squared TARGET_SIZE TARGET_SIZE
    let splash := create_splash icon TARGET_SIZE
    let favicon := resizeModel icon 48 48
    .ok [("icon.png", icon), ("adaptive-icon.png", icon),
         ("splash-icon.png", splash), ("favicon.png", favicon)]

/-- C8: if the post-processor's source image cannot be opened or decoded, the
run fails with a propagated error and no asset file is written — no `.ok`
write list is ever produced. -/
theorem c8_no_output_on_load_failure (e : PostEnv) (h : e.source = none) :
    process_icon_main e = .error "cannot identify or open source image" ∧
    ∀ writes : List (String × Img), process_icon_main e ≠ .ok writes := by
  have herr : process_icon_main e = .error "cannot identify or open source image" := by
    rw [process_icon_main, h]
  exact ⟨herr, fun writes hok => by rw [herr] at hok; exact Except.noConfusion hok⟩

/-- C8 witness: the theorem applied to the environment whose source image
fails to load. -/
theorem c8_no_output_on_load_failure_witness :
    process_icon_main ⟨none⟩ = .error "cannot identify or open source image" :=
  (c8_no_output_on_load_failure ⟨none⟩ rfl).1
